import Mathlib

/-!
Verification of the EventsManager repository's inventory / event-sales core:
the barcode validator (`src/barcode_scanner.py`), the inventory ledger
(`src/src/inventory_manager.py` together with the schema in
`src/src/database_schema.py`), and the event reservation manager
(`src/src/event_manager/product_importer.py`).

Python functions are embedded as executable Lean functions; the SQLite
tables become lists of rows, and the per-call connect / commit / rollback
discipline becomes explicit success/failure results on a state value.
-/

namespace EventsManager

/-! ### Barcode validator (src/barcode_scanner.py) -/
/-- Numeric value of a digit character, as Python's `int(d)` on a digit. -/
def digitVal (c : Char) : Nat := c.toNat - '0'.toNat

/-- List-level body of `_clean_barcode`: drop every character outside `0`-`9`
(the regex `[^0-9]` substitution). -/
def cleanChars (cs : List Char) : List Char := cs.filter Char.isDigit

/-- Embedding of `BarcodeScanner._clean_barcode`: remove all non-digit
characters from the input. -/
def clean_barcode (s : String) : String := ⟨cleanChars s.data⟩

/-- Alternating sum helper: with flag `true` it adds the entries at even
(0-based) indices, with flag `false` the entries at odd indices.  `altSum true`
is Python's `sum(digits[0::2])` and `altSum false` is `sum(digits[1::2])`. -/
def altSum : Bool → List Nat → Nat
  | _, [] => 0
  | b, a :: t => (if b then a else 0) + altSum (!b) t

/-- List-level body of `_validate_check_digit`: `odd_sum` is the sum of the
digits at even 0-based indices of all digits but the last (Python's
`digits[::2]`, 1-based odd positions), `even_sum` the others; the weighting
depends on the barcode length, and the last digit must equal
`(10 - total % 10) % 10`. -/
def checkDigitChars (cs : List Char) : Bool :=
  let ds := cs.map digitVal
  let body := ds.dropLast
  let check := ds.getLast?.getD 0
  let odd_sum := altSum true body
  let even_sum := altSum false body
  let total :=
    if cs.length == 8 || cs.length == 12 then odd_sum * 3 + even_sum
    else even_sum * 3 + odd_sum
  check == (10 - total % 10) % 10

/-- Embedding of `BarcodeScanner._validate_check_digit`. -/
def validate_check_digit (s : String) : Bool := checkDigitChars s.data

/-- List-level body of `_validate_barcode`: Python's `str.isdigit` (non-empty,
all digits), then a length check against `[8, 12, 13, 14]`, then the check
digit for lengths 8, 12 and 13; length 14 is accepted with no checksum. -/
def validChars (cs : List Char) : Bool :=
  if cs.isEmpty || !cs.all Char.isDigit then false
  else if !(cs.length == 8 || cs.length == 12 || cs.length == 13 || cs.length == 14) then
    false
  else if cs.length == 8 || cs.length == 12 || cs.length == 13 then checkDigitChars cs
  else true

/-- Embedding of `BarcodeScanner._validate_barcode`. -/
def validate_barcode (s : String) : Bool := validChars s.data

/-- Check-digit acceptance exactly as claim C7 words it: the weighted total is
`3×(even-indexed sum) + (odd-indexed sum)` for lengths 8 and 12 and
`3×(odd-indexed sum) + (even-indexed sum)` for length 13, 0-indexed over all
digits except the last; the last digit must equal `(10 − total mod 10) mod 10`. -/
def specCheckChars (cs : List Char) : Bool :=
  let ds := cs.map digitVal
  let body := ds.dropLast
  let lastDigit := ds.getLast?.getD 0
  let wt :=
    if cs.length == 13 then 3 * altSum false body + altSum true body
    else 3 * altSum true body + altSum false body
  lastDigit == (10 - wt % 10) % 10

/-- Acceptance predicate of claim C7 on the cleaned string: a digit string of
length 8, 12, 13 or 14, with the check digit constraint for lengths 8, 12
and 13 and no checksum for length 14. -/
def specValidChars (cs : List Char) : Bool :=
  cs.all Char.isDigit &&
  (cs.length == 8 || cs.length == 12 || cs.length == 13 || cs.length == 14) &&
  (if cs.length == 8 || cs.length == 12 || cs.length == 13 then specCheckChars cs else true)

/-! ### Batch scanning (BarcodeScanner.process_batch_scan) -/
/-- Result record of `process_batch_scan`: the tallies and the collected
product records. -/
structure BatchResult (P : Type) where
  total : Nat
  found : Nat
  not_found : Nat
  invalid : Nat
  products : List P

/-- Body of the `for` loop of `process_batch_scan`: clean the raw barcode,
bucket it as invalid when validation fails, otherwise look it up in the
catalog (`get_product_by_barcode`) and bucket it as found or not found. -/
def batchStep {P : Type} (catalog : String → Option P)
    (acc : BatchResult P) (raw : String) : BatchResult P :=
  let cb := clean_barcode raw
  if validate_barcode cb = false then { acc with invalid := acc.invalid + 1 }
  else
    match catalog cb with
    | some p => { acc with found := acc.found + 1, products := acc.products ++ [p] }
    | none => { acc with not_found := acc.not_found + 1 }

/-- Embedding of `BarcodeScanner.process_batch_scan` over an abstract catalog
lookup. -/
def process_batch_scan {P : Type} (catalog : String → Option P)
    (barcodes : List String) : BatchResult P :=
  barcodes.foldl (batchStep catalog) ⟨barcodes.length, 0, 0, 0, []⟩

/-- Test batch from the source's `__main__` block, used by claim C8. -/
def demoBatch : List String := ["5901234123457", "12345678", "123456", "ABC123456789"]

/-! ### Stateful scanning (BarcodeScanner.scan_barcode)

The scanner holds the mutable `last_scan` field (barcode, timestamp, product)
and the `scan_timeout` (2.0 seconds by default).  `time.time()` becomes an
explicit `now` argument; timestamps are modelled as integer time units. -/
/-- Scanner state: the `last_scan` dictionary (`None` initially) and the
configured `scan_timeout`. -/
structure Scanner (P : Type) where
  lastScan : Option (String × Int × Option P)
  scanTimeout : Int

/-- Outcome of `scan_barcode`: the invalid-format error dictionary, the
duplicate-scan error carrying the cached product, or the catalog lookup
result (a product record or `None`). -/
inductive ScanResult (P : Type) where
  | invalidFormat : ScanResult P
  | dup (cached : Option P) : ScanResult P
  | looked (product : Option P) : ScanResult P

/-- Embedding of `BarcodeScanner.scan_barcode`: clean the input, reject an
invalid format, answer a duplicate scan of the same cleaned barcode within the
timeout window from the cache without touching state, and otherwise perform a
fresh catalog lookup and overwrite `last_scan`. -/
def scan_barcode {P : Type} (catalog : String → Option P) (st : Scanner P)
    (raw : String) (now : Int) : ScanResult P × Scanner P :=
  let b := clean_barcode raw
  if validate_barcode b = false then (.invalidFormat, st)
  else
    match st.lastScan with
    | some (lb, t, p) =>
      if lb = b ∧ now - t < st.scanTimeout then (.dup p, st)
      else
        let product := catalog b
        (.looked product, { st with lastScan := some (b, now, product) })
    | none =>
      let product := catalog b
      (.looked product, { st with lastScan := some (b, now, product) })

/-- Concrete scanner state used in the scan witnesses: barcode
`5901234123457` was last scanned at time 0 with cached product 99, timeout 2
(the default 2.0 seconds). -/
def demoScanner : Scanner Nat :=
  ⟨some ("5901234123457", 0, some 99), 2⟩

/-- Fold of `scan_barcode` state over a list of scan times of the same raw
barcode, discarding the returned results. -/
def runDupScans {P : Type} (catalog : String → Option P) (st : Scanner P)
    (raw : String) (times : List Int) : Scanner P :=
  times.foldl (fun s τ => (scan_barcode catalog s raw τ).2) st

/-! ### Inventory ledger (src/src/inventory_manager.py, schema in
src/src/database_schema.py)

The `inventory` and `inventory_transactions` tables become lists of rows.
`add_stock` / `remove_stock` run their SQL statements on a working copy of
the state; the final `INSERT INTO annual_events (event_type, description,
related_id, user)` succeeds only when the `annual_events` table has those
columns — SQLite raises `no column named ...` otherwise, the `except` branch
rolls the connection back and the call returns `False`.  Whether that insert
can succeed is computed from the embedded schema below. -/
/-- Columns of the `annual_events` table as created by
`DatabaseManager.create_tables` (the annual report sheet columns). -/
def annual_events_columns : List String :=
  ["id", "periodo", "accordo", "num_eventi", "data", "expo_periodo", "nome",
   "mezzo_trasporto", "disciplina", "localita", "regione", "expo_brand", "addetto",
   "pernotto", "vitto_alloggio", "treno", "spazio_varie", "incassi_2024", "caschi",
   "occhiali", "pneumatici", "bdg_incassi", "bdg_costi", "km", "gasolio", "autostrada",
   "costi_reali", "incassi", "pos", "cash", "extra", "vendita_privati_agenti", "ffwd"]

/-- Columns named by the event-log INSERT in `add_stock` / `remove_stock`.
(They exist on the `events` table of the same schema, not on
`annual_events`.) -/
def stock_log_insert_columns : List String :=
  ["event_type", "description", "related_id", "user"]

/-- The event-log INSERT succeeds exactly when every column it names exists
on `annual_events`. -/
def eventLogOk : Bool :=
  stock_log_insert_columns.all (fun c => annual_events_columns.contains c)

/-- Row of the `inventory` table (the columns the ledger reads or writes). -/
structure InvRow where
  product_id : Nat
  quantity : Int
deriving DecidableEq

/-- Row of the append-only `inventory_transactions` table. -/
structure Txn where
  product_id : Nat
  transaction_type : String
  quantity : Int
  reference : Option String
  notes : Option String
  user : Option String
deriving DecidableEq

/-- Row of the event log written by the ledger (the columns named by its
INSERT statement). -/
structure EvLog where
  event_type : String
  description : String
  related_id : Nat
  user : Option String
deriving DecidableEq

/-- Database state seen by the inventory ledger. -/
structure LState where
  inv : List InvRow
  txns : List Txn
  logs : List EvLog
deriving DecidableEq

/-- On-hand quantity of a product: the quantity of the first `inventory` row
with that `product_id` (`fetchone`), 0 when there is none. -/
def onHand (st : LState) (pid : Nat) : Int :=
  ((st.inv.find? (fun r => r.product_id == pid)).map InvRow.quantity).getD 0

/-- Committed state of a successful `add_stock`: the `UPDATE inventory SET
quantity = quantity + ?` on every row of the product, the `in` transaction
row, and the `stock_in` event-log row with the new transaction's rowid. -/
def addStockApply (st : LState) (pid : Nat) (q : Int)
    (ref notes user : Option String) : LState :=
  { inv := st.inv.map (fun r =>
      if r.product_id == pid then { r with quantity := r.quantity + q } else r),
    txns := st.txns ++ [⟨pid, "in", q, ref, notes, user⟩],
    logs := st.logs ++
      [⟨"stock_in", "Added " ++ toString q ++ " units to stock",
        st.txns.length + 1, user⟩] }

/-- Embedding of `InventoryManager.add_stock`: reject `quantity ≤ 0`, run the
update, the transaction insert and the event-log insert in one transaction,
commit on success and roll everything back (returning `False`) when the
event-log insert fails. -/
def addStock (logOk : Bool) (st : LState) (pid : Nat) (q : Int)
    (ref notes user : Option String) : LState × Bool :=
  if q ≤ 0 then (st, false)
  else if logOk then (addStockApply st pid q ref notes user, true)
  else (st, false)

/-- Committed state of a successful `remove_stock`. -/
def removeStockApply (st : LState) (pid : Nat) (q : Int)
    (ref notes user : Option String) : LState :=
  { inv := st.inv.map (fun r =>
      if r.product_id == pid then { r with quantity := r.quantity - q } else r),
    txns := st.txns ++ [⟨pid, "out", q, ref, notes, user⟩],
    logs := st.logs ++
      [⟨"stock_out", "Removed " ++ toString q ++ " units from stock",
        st.txns.length + 1, user⟩] }

/-- Embedding of `InventoryManager.remove_stock`: reject `quantity ≤ 0`,
fail without mutation when there is no inventory row or the first row's
quantity is below the requested amount, and otherwise run the three
statements, committing only when the event-log insert succeeds. -/
def removeStock (logOk : Bool) (st : LState) (pid : Nat) (q : Int)
    (ref notes user : Option String) : LState × Bool :=
  if q ≤ 0 then (st, false)
  else
    match st.inv.find? (fun r => r.product_id == pid) with
    | none => (st, false)
    | some r =>
      if r.quantity < q then (st, false)
      else if logOk then (removeStockApply st pid q ref notes user, true)
      else (st, false)

/-- A ledger call: `add_stock` or `remove_stock` with its arguments. -/
inductive LOp where
  | add (pid : Nat) (q : Int) (ref notes user : Option String)
  | rem (pid : Nat) (q : Int) (ref notes user : Option String)

/-- State reached by one ledger call of the program (the event-log insert
outcome is the one determined by the repository's schema). -/
def applyLOp (st : LState) : LOp → LState
  | .add pid q ref notes user => (addStock eventLogOk st pid q ref notes user).1
  | .rem pid q ref notes user => (removeStock eventLogOk st pid q ref notes user).1

/-- State after a sequence of `add_stock` / `remove_stock` calls. -/
def runLedger (st : LState) (ops : List LOp) : LState :=
  ops.foldl applyLOp st

/-- Signed delta sum of a list of transaction rows for one product:
`+quantity` for each `in` row, `-quantity` for each `out` row. -/
def txnDeltaSum : List Txn → Nat → Int
  | [], _ => 0
  | t :: ts, pid =>
    (if t.product_id == pid then
       (if t.transaction_type == "in" then t.quantity else -t.quantity)
     else 0) + txnDeltaSum ts pid

/-- Concrete ledger state used in witnesses and failing-input evaluations:
one product (id 1) with on-hand quantity 10, empty ledger and event log. -/
def demoLedger : LState := ⟨[⟨1, 10⟩], [], []⟩

/-- Concrete ledger call sequence for the C1 witness. -/
def demoLedgerOps : List LOp :=
  [.add 1 5 none none none, .rem 1 3 none none none]

/-! ### Event reservation manager
(src/src/event_manager/product_importer.py)

`EventProductImporter` mutates the `event_products` table and calls
`inventory_manager.get_available_stock` / `reserve_stock` /
`release_reserved_stock` and the database manager's begin / commit /
rollback.  None of those five is defined anywhere under src — only these
call sites exist — so they are modelled from the spec (§4.2 and the
glossary: available = on-hand − reserved; reserve/release adjust the
reservation bookkeeping).  The importer's own statements are embedded from
the source. -/
/-- Row of the `event_products` table. -/
structure EPRow where
  event_id : Nat
  product_id : Nat
  quantity_assigned : Int
  event_sale_price : Option ℚ
deriving DecidableEq

/-- The `WHERE event_id = ? AND product_id = ?` match used by every
event-product statement. -/
def isKey (eid pid : Nat) (r : EPRow) : Bool :=
  r.event_id == eid && r.product_id == pid

/-- Database state seen by the reservation manager: on-hand quantities,
the reservation bookkeeping, and the `event_products` rows.  The importer
never touches on-hand quantities. -/
structure RState where
  onHandQty : Nat → Int
  reservedQty : Nat → Int
  eps : List EPRow

/-- Modelled from the spec: `get_available_stock` is missing from src (only
its call sites exist); per the glossary, available stock = on-hand minus
reserved. -/
def get_available_stock (st : RState) (pid : Nat) : Int :=
  st.onHandQty pid - st.reservedQty pid

/-- Modelled from the spec: `reserve_stock` is missing from src; it commits
a quantity of on-hand stock to an event by increasing the product's
reservation bookkeeping. -/
def reserve_stock (st : RState) (pid : Nat) (q : Int) : RState :=
  { st with reservedQty := fun p => if p == pid then st.reservedQty p + q else st.reservedQty p }

/-- Modelled from the spec: `release_reserved_stock` is missing from src; it
returns a reserved quantity to availability by decreasing the product's
reservation bookkeeping. -/
def release_reserved_stock (st : RState) (pid : Nat) (q : Int) : RState :=
  { st with reservedQty := fun p => if p == pid then st.reservedQty p - q else st.reservedQty p }

/-- Sum over all events of `quantity_assigned` for one product. -/
def epSum : List EPRow → Nat → Int
  | [], _ => 0
  | r :: t, pid => (if r.product_id == pid then r.quantity_assigned else 0) + epSum t pid

/-- No two `event_products` rows share an (event, product) key. -/
def epKeysNodup : List EPRow → Bool
  | [] => true
  | r :: t => !(t.any (isKey r.event_id r.product_id)) && epKeysNodup t

/-- One product selection passed to `import_products_to_event`. -/
structure Sel where
  product_id : Nat
  quantity : Int
  sale_price : Option ℚ

/-- The `UPDATE event_products SET quantity_assigned = quantity_assigned + ?`
statement applied to one row. -/
def bumpQty (eid pid : Nat) (q : Int) (r : EPRow) : EPRow :=
  if isKey eid pid r then { r with quantity_assigned := r.quantity_assigned + q } else r

/-- The `UPDATE event_products SET quantity_assigned = ?` statement applied
to one row. -/
def setQty (eid pid : Nat) (newq : Int) (r : EPRow) : EPRow :=
  if isKey eid pid r then { r with quantity_assigned := newq } else r

/-- The `UPDATE event_products SET event_sale_price = ?` statement applied
to one row. -/
def setPrice (eid pid : Nat) (price : ℚ) (r : EPRow) : EPRow :=
  if isKey eid pid r then { r with event_sale_price := some price } else r

/-- The upsert of `import_products_to_event`: when an (event, product) row
exists, add the quantity to its `quantity_assigned`; otherwise insert a new
row. -/
def upsertEPRows (eps : List EPRow) (eid pid : Nat) (q : Int) : List EPRow :=
  if eps.any (isKey eid pid) then eps.map (bumpQty eid pid q)
  else eps ++ [⟨eid, pid, q, none⟩]

/-- Body of the selection loop of `import_products_to_event` after the stock
check: upsert the EventProduct row, reserve the quantity, and store the
optional per-event sale price. -/
def applySel (st : RState) (eid : Nat) (sel : Sel) : RState :=
  let st1 := { st with eps := upsertEPRows st.eps eid sel.product_id sel.quantity }
  let st2 := reserve_stock st1 sel.product_id sel.quantity
  match sel.sale_price with
  | some price => { st2 with eps := st2.eps.map (setPrice eid sel.product_id price) }
  | none => st2

/-- Selection loop of `import_products_to_event`: each selection first checks
available stock and raises (`ValueError`, modelled as `.error`) when it is
short, aborting the whole transaction. -/
def importLoop (eid : Nat) : RState → List Sel → Except String RState
  | st, [] => .ok st
  | st, sel :: rest =>
    if get_available_stock st sel.product_id < sel.quantity then
      .error ("Not enough stock for product ID " ++ toString sel.product_id)
    else importLoop eid (applySel st eid sel) rest

/-- Embedding of `EventProductImporter.import_products_to_event`: the whole
selection list is one transaction — `.ok` is the committed state, `.error`
the re-raised exception after rollback (the caller's state is unchanged). -/
def import_products_to_event (st : RState) (eid : Nat) (sels : List Sel) :
    Except String RState :=
  importLoop eid st sels

/-- Embedding of `EventProductImporter.update_event_product_quantity`:
missing assignment raises; a positive difference needs available stock and
reserves it, a negative one releases its absolute value; the row is then
set to the new quantity, all in one transaction. -/
def update_event_product_quantity (st : RState) (eid pid : Nat) (newq : Int) :
    Except String RState :=
  match st.eps.find? (isKey eid pid) with
  | none =>
    .error ("Product ID " ++ toString pid ++ " is not assigned to event ID " ++ toString eid)
  | some r =>
    let diff := newq - r.quantity_assigned
    if 0 < diff then
      if get_available_stock st pid < diff then
        .error ("Not enough stock for product ID " ++ toString pid)
      else
        .ok { (reserve_stock st pid diff) with eps := st.eps.map (setQty eid pid newq) }
    else if diff < 0 then
      .ok { (release_reserved_stock st pid (-diff)) with eps := st.eps.map (setQty eid pid newq) }
    else
      .ok { st with eps := st.eps.map (setQty eid pid newq) }

/-- Embedding of `EventProductImporter.remove_product_from_event`: missing
assignment raises; otherwise the current assigned quantity is released and
the row deleted, in one transaction. -/
def remove_product_from_event (st : RState) (eid pid : Nat) : Except String RState :=
  match st.eps.find? (isKey eid pid) with
  | none =>
    .error ("Product ID " ++ toString pid ++ " is not assigned to event ID " ++ toString eid)
  | some r =>
    .ok { (release_reserved_stock st pid r.quantity_assigned) with
      eps := st.eps.filter (fun x => !(isKey eid pid x)) }

/-- A reservation-manager call: import of a selection list, quantity update,
or removal. -/
inductive ROp where
  | imp (eid : Nat) (sels : List Sel)
  | upd (eid pid : Nat) (newq : Int)
  | rem (eid pid : Nat)

/-- State reached by one reservation-manager call: on `.error` the
transaction was rolled back, so the caller's state is unchanged. -/
def stepROp (st : RState) : ROp → RState
  | .imp eid sels =>
    match import_products_to_event st eid sels with
    | .ok st' => st'
    | .error _ => st
  | .upd eid pid newq =>
    match update_event_product_quantity st eid pid newq with
    | .ok st' => st'
    | .error _ => st
  | .rem eid pid =>
    match remove_product_from_event st eid pid with
    | .ok st' => st'
    | .error _ => st

/-- State after a sequence of reservation-manager calls. -/
def runROps (st : RState) (ops : List ROp) : RState :=
  ops.foldl stepROp st

/-- Fresh reservation state: given on-hand quantities, no assignments and no
reservations. -/
def initR (f : Nat → Int) : RState :=
  ⟨f, fun _ => 0, []⟩

/-- All quantities carried by a call are non-negative. -/
def opNonnegB : ROp → Bool
  | .imp _ sels => sels.all (fun sel => decide (0 ≤ sel.quantity))
  | .upd _ _ newq => decide (0 ≤ newq)
  | .rem _ _ => true

/-- Invariant carried through every reservation-manager call: unique
(event, product) keys, reservation bookkeeping equal to the per-product
assignment sums, non-negative assigned quantities, and reservations bounded
by on-hand stock. -/
def ResInv (st : RState) : Prop :=
  epKeysNodup st.eps = true ∧
  (∀ p, st.reservedQty p = epSum st.eps p) ∧
  (∀ r ∈ st.eps, 0 ≤ r.quantity_assigned) ∧
  (∀ p, st.reservedQty p ≤ st.onHandQty p)

/-- Reservation-manager call sequence exhibiting the C5 counterexample:
assign 5 of product 1 to event 1, update that assignment to −3 (the code
accepts any integer `new_quantity` and releases the 8-unit difference),
assign 8 of product 1 to event 2 — the bogus release made it look
available — then remove the event-1 assignment, releasing −3. -/
def cexOps : List ROp :=
  [.imp 1 [⟨1, 5, none⟩], .upd 1 1 (-3), .imp 2 [⟨1, 8, none⟩], .rem 1 1]

/-- Concrete reservation state used by the C6 witness: on-hand 10 for every
product, nothing reserved, no assignments. -/
def demoRState : RState := ⟨fun _ => 10, fun _ => 0, []⟩

lemma cleanChars_all_digits (cs : List Char) : (cleanChars cs).all Char.isDigit = true := by
  simp only [cleanChars, List.all_eq_true]
  intro c hc
  exact (List.mem_filter.mp hc).2

lemma checkDigitChars_eq_spec (cs : List Char)
    (h : cs.length = 8 ∨ cs.length = 12 ∨ cs.length = 13) :
    checkDigitChars cs = specCheckChars cs := by
  rcases h with h | h | h <;>
    simp [checkDigitChars, specCheckChars, h, Nat.mul_comm]

lemma validChars_eq_spec (cs : List Char) (hd : cs.all Char.isDigit = true) :
    validChars cs = specValidChars cs := by
  by_cases he : cs.isEmpty
  · have : cs = [] := List.isEmpty_iff.mp he
    subst this
    simp [validChars, specValidChars]
  · by_cases h8 : cs.length = 8
    · simp [validChars, specValidChars, hd, he, h8, checkDigitChars_eq_spec cs (Or.inl h8)]
    · by_cases h12 : cs.length = 12
      · simp [validChars, specValidChars, hd, he, h12,
          checkDigitChars_eq_spec cs (Or.inr (Or.inl h12))]
      · by_cases h13 : cs.length = 13
        · simp [validChars, specValidChars, hd, he, h13,
            checkDigitChars_eq_spec cs (Or.inr (Or.inr h13))]
        · by_cases h14 : cs.length = 14
          · simp [validChars, specValidChars, hd, he, h8, h12, h13, h14]
          · simp [validChars, specValidChars, hd, he, h8, h12, h13, h14]

/-- C7: for every input string, validation first strips the non-digit
characters and then accepts the result exactly when it is a digit string of
length 8, 12, 13 or 14 whose check digit satisfies the claimed weighted-sum
formula for lengths 8, 12 and 13, length 14 being accepted with no checksum. -/
theorem c7_validate_strips_then_checks (s : String) :
    validate_barcode (clean_barcode s) = specValidChars (cleanChars s.data) :=
  validChars_eq_spec (cleanChars s.data) (cleanChars_all_digits s.data)

lemma batchStep_counts {P : Type} (catalog : String → Option P)
    (acc : BatchResult P) (raw : String) :
    (batchStep catalog acc raw).found + (batchStep catalog acc raw).not_found +
      (batchStep catalog acc raw).invalid
      = acc.found + acc.not_found + acc.invalid + 1 := by
  by_cases h : validate_barcode (clean_barcode raw) = false
  · simp [batchStep, h]; omega
  · cases hc : catalog (clean_barcode raw) <;> simp [batchStep, h, hc] <;> omega

lemma batch_counts_aux {P : Type} (catalog : String → Option P) :
    ∀ (bs : List String) (acc : BatchResult P),
      (bs.foldl (batchStep catalog) acc).found +
        (bs.foldl (batchStep catalog) acc).not_found +
        (bs.foldl (batchStep catalog) acc).invalid
        = acc.found + acc.not_found + acc.invalid + bs.length
  | [], acc => by simp
  | b :: t, acc => by
    have ht := batch_counts_aux catalog t (batchStep catalog acc b)
    have hs := batchStep_counts catalog acc b
    simp only [List.foldl_cons, List.length_cons]
    omega

lemma batchStep_total {P : Type} (catalog : String → Option P)
    (acc : BatchResult P) (raw : String) :
    (batchStep catalog acc raw).total = acc.total := by
  by_cases h : validate_barcode (clean_barcode raw) = false
  · simp [batchStep, h]
  · cases hc : catalog (clean_barcode raw) <;> simp [batchStep, h, hc]

lemma batch_total_aux {P : Type} (catalog : String → Option P) :
    ∀ (bs : List String) (acc : BatchResult P),
      (bs.foldl (batchStep catalog) acc).total = acc.total
  | [], _ => rfl
  | b :: t, acc => by
    simp only [List.foldl_cons]
    rw [batch_total_aux catalog t (batchStep catalog acc b), batchStep_total]

/-- C8 counterexample: with an empty catalog, the batch
`["5901234123457", "12345678", "123456", "ABC123456789"]` yields an invalid
count different from the claimed 2 — `12345678` fails the EAN-8 check digit
(the expected check digit of `1234567` is 0), so three inputs are invalid. -/
theorem c8_counterexample :
    ¬ ((process_batch_scan (fun _ => (none : Option Unit)) demoBatch).invalid = 2) := by
  decide

/-- C8 (amended): `process_batch_scan` is a total function placing every input
barcode in exactly one of the found / not-found / invalid buckets, so the
three counts always sum to the number of inputs; on the test batch the
invalid count is 3 — `12345678`, `123456` and `ABC123456789` all fail
validation — and only `5901234123457` is bucketed as found or not found
according to the catalog. -/
theorem c8_batch_partition :
    (∀ (P : Type) (catalog : String → Option P) (bs : List String),
        (process_batch_scan catalog bs).found + (process_batch_scan catalog bs).not_found +
            (process_batch_scan catalog bs).invalid = bs.length ∧
          (process_batch_scan catalog bs).total = bs.length) ∧
    (∀ (P : Type) (catalog : String → Option P),
        (process_batch_scan catalog demoBatch).invalid = 3 ∧
          (process_batch_scan catalog demoBatch).found +
              (process_batch_scan catalog demoBatch).not_found = 1) ∧
    validate_barcode (clean_barcode "5901234123457") = true ∧
    validate_barcode (clean_barcode "12345678") = false ∧
    validate_barcode (clean_barcode "123456") = false ∧
    validate_barcode (clean_barcode "ABC123456789") = false := by
  refine ⟨fun P catalog bs => ⟨?_, ?_⟩, fun P catalog => ?_, by decide, by decide, by decide,
    by decide⟩
  · have h := batch_counts_aux catalog bs ⟨bs.length, 0, 0, 0, []⟩
    simpa [process_batch_scan] using h
  · have h := batch_total_aux catalog bs ⟨bs.length, 0, 0, 0, []⟩
    simpa [process_batch_scan] using h
  · have h1 : validate_barcode (clean_barcode "5901234123457") = true := by decide
    have h2 : validate_barcode (clean_barcode "12345678") = false := by decide
    have h3 : validate_barcode (clean_barcode "123456") = false := by decide
    have h4 : validate_barcode (clean_barcode "ABC123456789") = false := by decide
    simp only [process_batch_scan, demoBatch, List.foldl_cons, List.foldl_nil]
    cases hc : catalog (clean_barcode "5901234123457") <;>
      simp [batchStep, h1, h2, h3, h4, hc]

/-- C9: a second scan of the same normalized barcode within the timeout
window of the previous scan returns the cached product with the duplicate
signal — identically for every catalog, i.e. without querying it — and after
the window has elapsed the scan performs a fresh catalog lookup instead. -/
theorem c9_duplicate_scan_suppression {P : Type} (catalog catalog2 : String → Option P)
    (st : Scanner P) (raw : String) (t0 now : Int) (p : Option P)
    (hv : validate_barcode (clean_barcode raw) = true)
    (hl : st.lastScan = some (clean_barcode raw, t0, p)) :
    (now - t0 < st.scanTimeout →
        scan_barcode catalog st raw now = (.dup p, st) ∧
          scan_barcode catalog st raw now = scan_barcode catalog2 st raw now) ∧
    (st.scanTimeout ≤ now - t0 →
        scan_barcode catalog st raw now =
          (.looked (catalog (clean_barcode raw)),
            { st with lastScan := some (clean_barcode raw, now, catalog (clean_barcode raw)) })) := by
  constructor
  · intro hwin
    constructor <;> simp [scan_barcode, hv, hl, hwin]
  · intro hout
    have : ¬ (now - t0 < st.scanTimeout) := not_lt.mpr hout
    simp [scan_barcode, hv, hl, this]

/-- Witness for C9 at a concrete input: the valid barcode `5901234123457`
rescanned at time 1 (within the 2-unit window of the scan at time 0) returns
the duplicate signal with the cached product and the state untouched. -/
theorem c9_witness :
    validate_barcode (clean_barcode "5901234123457") = true ∧
      scan_barcode (fun _ => some 7) demoScanner "5901234123457" 1 =
        (.dup (some 99), demoScanner) :=
  ⟨by decide,
    ((c9_duplicate_scan_suppression (fun _ => some 7) (fun _ => some 8) demoScanner
        "5901234123457" 0 1 (some 99) (by decide) rfl).1 (by decide)).1⟩

lemma scan_state_of_dup_or_invalid {P : Type} (catalog : String → Option P)
    (st : Scanner P) (raw : String) (now : Int) :
    ((scan_barcode catalog st raw now).1 = .invalidFormat →
        (scan_barcode catalog st raw now).2 = st) ∧
    (∀ q : Option P, (scan_barcode catalog st raw now).1 = .dup q →
        (scan_barcode catalog st raw now).2 = st) := by
  by_cases hv : validate_barcode (clean_barcode raw) = false
  · simp [scan_barcode, hv]
  · match hl : st.lastScan with
    | none => simp [scan_barcode, hv, hl]
    | some (lb, t, p) =>
      by_cases hd : lb = clean_barcode raw ∧ now - t < st.scanTimeout
      · simp [scan_barcode, hv, hl, hd]
      · simp [scan_barcode, hv, hl, hd]

lemma scan_dup_state_fixed {P : Type} (catalog : String → Option P)
    (raw : String) (t0 T : Int) (p : Option P) (τ : Int)
    (hτ : τ - t0 < T) :
    (scan_barcode catalog ⟨some (clean_barcode raw, t0, p), T⟩ raw τ).2 =
      ⟨some (clean_barcode raw, t0, p), T⟩ := by
  by_cases hv : validate_barcode (clean_barcode raw) = false
  · simp [scan_barcode, hv]
  · simp [scan_barcode, hv, hτ]

/-- C10: (frame) a scan answered with the duplicate signal or rejected as
invalid format leaves `last_scan` (barcode, timestamp, product) completely
unchanged; consequently repeated scans of the same barcode at times within
the window measured from the original fresh lookup all leave the state at
that original record, and a scan after the window from the original lookup
elapses performs a fresh catalog lookup again. -/
theorem c10_last_scan_frame :
    (∀ (P : Type) (catalog : String → Option P) (st : Scanner P) (raw : String) (now : Int),
        ((scan_barcode catalog st raw now).1 = .invalidFormat →
            (scan_barcode catalog st raw now).2 = st) ∧
        (∀ q : Option P, (scan_barcode catalog st raw now).1 = .dup q →
            (scan_barcode catalog st raw now).2 = st)) ∧
    (∀ (P : Type) (catalog : String → Option P) (raw : String) (t0 T : Int)
        (p : Option P) (times : List Int) (now : Int),
        (∀ τ ∈ times, τ - t0 < T) →
        runDupScans catalog ⟨some (clean_barcode raw, t0, p), T⟩ raw times =
          ⟨some (clean_barcode raw, t0, p), T⟩ ∧
        (validate_barcode (clean_barcode raw) = true → T ≤ now - t0 →
          scan_barcode catalog
              (runDupScans catalog ⟨some (clean_barcode raw, t0, p), T⟩ raw times) raw now =
            (.looked (catalog (clean_barcode raw)),
              ⟨some (clean_barcode raw, now, catalog (clean_barcode raw)), T⟩))) := by
  constructor
  · intro P catalog st raw now
    exact scan_state_of_dup_or_invalid catalog st raw now
  · intro P catalog raw t0 T p times now htimes
    have hrun : runDupScans catalog ⟨some (clean_barcode raw, t0, p), T⟩ raw times =
        ⟨some (clean_barcode raw, t0, p), T⟩ := by
      induction times with
      | nil => rfl
      | cons τ ts ih =>
        have hτ := htimes τ (by simp)
        have hrest : ∀ τ' ∈ ts, τ' - t0 < T := fun τ' h => htimes τ' (by simp [h])
        simp only [runDupScans, List.foldl_cons]
        rw [scan_dup_state_fixed catalog raw t0 T p τ hτ]
        exact ih hrest
    refine ⟨hrun, fun hv hout => ?_⟩
    rw [hrun]
    have hnot : ¬ ((now : Int) - t0 < T) := not_lt.mpr hout
    simp [scan_barcode, hv, hnot]

/-- Witness for C10 at concrete inputs: two in-window rescans (times 1 and 1)
of `5901234123457` leave the original record (timestamp 0) in place, and a
scan at time 3 — beyond the 2-unit window measured from time 0 — performs a
fresh lookup that overwrites the record. -/
theorem c10_witness :
    ((1 : Int) - 0 < 2 ∧ validate_barcode (clean_barcode "5901234123457") = true) ∧
      (runDupScans (fun _ => some 7) demoScanner "5901234123457" [1, 1] = demoScanner ∧
        (validate_barcode (clean_barcode "5901234123457") = true → (2 : Int) ≤ 3 - 0 →
          scan_barcode (fun _ => some 7)
              (runDupScans (fun _ => some 7) demoScanner "5901234123457" [1, 1])
              "5901234123457" 3 =
            (.looked (some 7), ⟨some ("5901234123457", 3, some 7), 2⟩))) :=
  ⟨⟨by decide, by decide⟩,
    c10_last_scan_frame.2 Nat (fun _ => some 7) "5901234123457" 0 2 (some 99) [1, 1] 3
      (by intro τ hτ; simp at hτ; omega)⟩

lemma eventLogOk_eq_false : eventLogOk = false := by decide

lemma applyLOp_eq_self (st : LState) (op : LOp) : applyLOp st op = st := by
  cases op with
  | add pid q ref notes user =>
    simp only [applyLOp, addStock, eventLogOk_eq_false]
    split <;> simp
  | rem pid q ref notes user =>
    simp only [applyLOp, removeStock, eventLogOk_eq_false]
    split
    · rfl
    · split
      · rfl
      · split <;> simp

lemma runLedger_eq_self (st : LState) : ∀ ops : List LOp, runLedger st ops = st
  | [] => rfl
  | op :: ops => by
    simp only [runLedger, List.foldl_cons, applyLOp_eq_self]
    exact runLedger_eq_self st ops

/-- C1: from any initial inventory state with non-negative quantities, along
any sequence of `add_stock` / `remove_stock` calls every inventory quantity
stays non-negative at every intermediate state, and each product's on-hand
quantity always equals its initial quantity plus the signed delta sum of the
`inventory_transactions` rows those calls wrote.  (Under the repository's
schema every call rolls back — see C2/C3 — so the ledger grows by nothing
and the balance is preserved exactly.) -/
theorem c1_ledger_conservation (init : LState) (ops : List LOp)
    (h : ∀ r ∈ init.inv, 0 ≤ r.quantity) :
    (∀ k, ∀ r ∈ (runLedger init (ops.take k)).inv, 0 ≤ r.quantity) ∧
    (∀ pid, onHand (runLedger init ops) pid =
        onHand init pid +
          txnDeltaSum ((runLedger init ops).txns.drop init.txns.length) pid) := by
  constructor
  · intro k r hr
    rw [runLedger_eq_self] at hr
    exact h r hr
  · intro pid
    rw [runLedger_eq_self, List.drop_length]
    simp [txnDeltaSum]

/-- Witness for C1 at a concrete input: product 1 starts at quantity 10 and
an `add_stock`/`remove_stock` sequence keeps every quantity non-negative and
balanced against the written transactions. -/
theorem c1_witness :
    (∀ r ∈ demoLedger.inv, 0 ≤ r.quantity) ∧
      ((∀ k, ∀ r ∈ (runLedger demoLedger (demoLedgerOps.take k)).inv, 0 ≤ r.quantity) ∧
        (∀ pid, onHand (runLedger demoLedger demoLedgerOps) pid =
            onHand demoLedger pid +
              txnDeltaSum ((runLedger demoLedger demoLedgerOps).txns.drop
                demoLedger.txns.length) pid)) :=
  ⟨by decide, c1_ledger_conservation demoLedger demoLedgerOps (by decide)⟩

/-- C2 (bug evidence): the event-log INSERT of `add_stock` names columns that
the `annual_events` table does not have, so with a product that has an
inventory row and a positive quantity the call still fails and mutates
nothing, where the claim (and the spec) promise success, an incremented
quantity and one `in` transaction. -/
theorem c2_add_stock_always_rolls_back :
    eventLogOk = false ∧
      addStock eventLogOk demoLedger 1 5 none none none = (demoLedger, false) ∧
      (0 : Int) < 5 := by
  refine ⟨eventLogOk_eq_false, ?_, by decide⟩
  rw [eventLogOk_eq_false]
  decide

/-- C3 (bug evidence): `remove_stock` of 5 units from a product holding 10 —
enough stock, so the claim promises success, a decrement by 5 and one `out`
transaction — still fails and mutates nothing, because its event-log INSERT
targets `annual_events` columns that do not exist. -/
theorem c3_remove_stock_always_rolls_back :
    eventLogOk = false ∧
      removeStock eventLogOk demoLedger 1 5 none none none = (demoLedger, false) ∧
      (5 : Int) ≤ onHand demoLedger 1 := by
  refine ⟨eventLogOk_eq_false, ?_, by decide⟩
  rw [eventLogOk_eq_false]
  decide

/-- C4: each `add_stock` / `remove_stock` call is all-or-nothing for every
possible outcome of the event-log insert: the call either returns `True`
with the inventory update, the transaction row and the log row all committed,
or returns `False` (never raising) with the state exactly as before. -/
theorem c4_ledger_atomicity (logOk : Bool) (st : LState) (pid : Nat) (q : Int)
    (ref notes user : Option String) :
    (addStock logOk st pid q ref notes user = (addStockApply st pid q ref notes user, true) ∨
        addStock logOk st pid q ref notes user = (st, false)) ∧
    (removeStock logOk st pid q ref notes user =
          (removeStockApply st pid q ref notes user, true) ∨
        removeStock logOk st pid q ref notes user = (st, false)) := by
  constructor
  · by_cases hq : q ≤ 0
    · right; simp [addStock, hq]
    · cases logOk with
      | false => right; simp [addStock, hq]
      | true => left; simp [addStock, hq]
  · by_cases hq : q ≤ 0
    · right; simp [removeStock, hq]
    · match hf : st.inv.find? (fun r => r.product_id == pid) with
      | none => right; simp [removeStock, hq, hf]
      | some r =>
        by_cases hlt : r.quantity < q
        · right; simp [removeStock, hq, hf, hlt]
        · cases logOk with
          | false => right; simp [removeStock, hq, hf, hlt]
          | true => left; simp [removeStock, hq, hf, hlt]

lemma bumpQty_fields (eid pid : Nat) (q : Int) (r : EPRow) :
    (bumpQty eid pid q r).event_id = r.event_id ∧
      (bumpQty eid pid q r).product_id = r.product_id := by
  unfold bumpQty; split <;> simp

lemma setQty_fields (eid pid : Nat) (newq : Int) (r : EPRow) :
    (setQty eid pid newq r).event_id = r.event_id ∧
      (setQty eid pid newq r).product_id = r.product_id := by
  unfold setQty; split <;> simp

lemma setPrice_fields (eid pid : Nat) (price : ℚ) (r : EPRow) :
    (setPrice eid pid price r).event_id = r.event_id ∧
      (setPrice eid pid price r).product_id = r.product_id := by
  unfold setPrice; split <;> simp

lemma setPrice_qty (eid pid : Nat) (price : ℚ) (r : EPRow) :
    (setPrice eid pid price r).quantity_assigned = r.quantity_assigned := by
  unfold setPrice; split <;> simp

lemma map_any_isKey (f : EPRow → EPRow)
    (hf : ∀ r, (f r).event_id = r.event_id ∧ (f r).product_id = r.product_id)
    (e p : Nat) : ∀ l : List EPRow, (l.map f).any (isKey e p) = l.any (isKey e p)
  | [] => rfl
  | a :: t => by
    simp only [List.map_cons, List.any_cons, map_any_isKey f hf e p t]
    congr 1
    simp [isKey, (hf a).1, (hf a).2]

lemma map_epKeysNodup (f : EPRow → EPRow)
    (hf : ∀ r, (f r).event_id = r.event_id ∧ (f r).product_id = r.product_id) :
    ∀ l : List EPRow, epKeysNodup (l.map f) = epKeysNodup l
  | [] => rfl
  | a :: t => by
    simp only [List.map_cons, epKeysNodup, (hf a).1, (hf a).2,
      map_any_isKey f hf, map_epKeysNodup f hf t]

lemma find?_isKey_fields {e p : Nat} {l : List EPRow} {r : EPRow}
    (h : l.find? (isKey e p) = some r) :
    r.event_id = e ∧ r.product_id = p ∧ r ∈ l := by
  have h1 := List.find?_some h
  have h2 := List.mem_of_find?_eq_some h
  simp only [isKey, Bool.and_eq_true, beq_iff_eq] at h1
  exact ⟨h1.1, h1.2, h2⟩

lemma any_filter_false (pr k : EPRow → Bool) :
    ∀ l : List EPRow, l.any k = false → (l.filter pr).any k = false
  | [], _ => rfl
  | a :: t, h => by
    simp only [List.any_cons, Bool.or_eq_false_iff] at h
    by_cases hp : pr a
    · simp [List.filter_cons, hp, h.1, any_filter_false pr k t h.2]
    · simp [List.filter_cons, hp, any_filter_false pr k t h.2]

lemma epKeysNodup_filter (pr : EPRow → Bool) :
    ∀ l : List EPRow, epKeysNodup l = true → epKeysNodup (l.filter pr) = true
  | [], _ => rfl
  | a :: t, h => by
    simp only [epKeysNodup, Bool.and_eq_true, Bool.not_eq_true'] at h
    by_cases hp : pr a
    · simp only [List.filter_cons, hp, if_true, epKeysNodup, Bool.and_eq_true,
        Bool.not_eq_true']
      exact ⟨any_filter_false pr _ t h.1, epKeysNodup_filter pr t h.2⟩
    · simp only [List.filter_cons, hp]
      exact epKeysNodup_filter pr t h.2

lemma epKeysNodup_append (e p : Nat) (q : Int) (sp : Option ℚ) :
    ∀ l : List EPRow, epKeysNodup l = true → l.any (isKey e p) = false →
      epKeysNodup (l ++ [⟨e, p, q, sp⟩]) = true
  | [], _, _ => by simp [epKeysNodup]
  | a :: t, hn, hno => by
    simp only [epKeysNodup, Bool.and_eq_true, Bool.not_eq_true'] at hn
    simp only [List.any_cons, Bool.or_eq_false_iff] at hno
    simp only [List.cons_append, epKeysNodup, Bool.and_eq_true, Bool.not_eq_true']
    refine ⟨?_, epKeysNodup_append e p q sp t hn.2 hno.2⟩
    simp only [List.append_eq, List.any_append, Bool.or_eq_false_iff]
    refine ⟨hn.1, ?_⟩
    simp only [List.any_cons, List.any_nil, Bool.or_false]
    cases hT : isKey a.event_id a.product_id ⟨e, p, q, sp⟩ with
    | false => rfl
    | true =>
      exfalso
      have h2 : e = a.event_id ∧ p = a.product_id := by
        simpa [isKey, Bool.and_eq_true, beq_iff_eq] using hT
      have h3 : isKey e p a = true := by
        simp [isKey, Bool.and_eq_true, beq_iff_eq, h2.1, h2.2]
      have h4 := hno.1
      rw [h3] at h4
      exact absurd h4 (by simp)

lemma bump_map_id (e p : Nat) (q : Int) :
    ∀ l : List EPRow, l.any (isKey e p) = false → l.map (bumpQty e p q) = l
  | [], _ => rfl
  | a :: t, h => by
    simp only [List.any_cons, Bool.or_eq_false_iff] at h
    simp [List.map_cons, bumpQty, h.1, bump_map_id e p q t h.2]

lemma setQty_map_id (e p : Nat) (newq : Int) :
    ∀ l : List EPRow, l.any (isKey e p) = false → l.map (setQty e p newq) = l
  | [], _ => rfl
  | a :: t, h => by
    simp only [List.any_cons, Bool.or_eq_false_iff] at h
    simp [List.map_cons, setQty, h.1, setQty_map_id e p newq t h.2]

lemma filter_not_key_id (e p : Nat) :
    ∀ l : List EPRow, l.any (isKey e p) = false →
      l.filter (fun x => !(isKey e p x)) = l
  | [], _ => rfl
  | a :: t, h => by
    simp only [List.any_cons, Bool.or_eq_false_iff] at h
    simp [List.filter_cons, h.1, filter_not_key_id e p t h.2]

lemma epSum_append (row : EPRow) :
    ∀ (l : List EPRow) (pp : Nat),
      epSum (l ++ [row]) pp =
        epSum l pp + (if row.product_id == pp then row.quantity_assigned else 0)
  | [], pp => by simp [epSum]
  | a :: t, pp => by
    rw [List.cons_append]
    show (if a.product_id == pp then a.quantity_assigned else 0) + epSum (t ++ [row]) pp = _
    rw [epSum_append row t pp]
    show _ = (if a.product_id == pp then a.quantity_assigned else 0) + epSum t pp + _
    omega

lemma epSum_map_bumpQty (e p : Nat) (q : Int) :
    ∀ (l : List EPRow), epKeysNodup l = true → ∀ pp : Nat,
      epSum (l.map (bumpQty e p q)) pp =
        epSum l pp + (if l.any (isKey e p) = true ∧ p = pp then q else 0)
  | [], _, pp => by simp [epSum]
  | a :: t, hn, pp => by
    simp only [epKeysNodup, Bool.and_eq_true, Bool.not_eq_true'] at hn
    by_cases hk : isKey e p a = true
    · obtain ⟨he, hp⟩ : a.event_id = e ∧ a.product_id = p := by
        simpa [isKey, Bool.and_eq_true, beq_iff_eq] using hk
      have hta : t.any (isKey e p) = false := by rw [← he, ← hp]; exact hn.1
      have hany : (a :: t).any (isKey e p) = true := by simp [List.any_cons, hk]
      have hb : bumpQty e p q a = { a with quantity_assigned := a.quantity_assigned + q } := by
        simp [bumpQty, hk]
      have lhs_eq : epSum ((a :: t).map (bumpQty e p q)) pp
          = (if a.product_id == pp then a.quantity_assigned + q else 0) + epSum t pp := by
        rw [List.map_cons, bump_map_id e p q t hta, hb]
        rfl
      rw [lhs_eq, hany]
      show _ = (if a.product_id == pp then a.quantity_assigned else 0) + epSum t pp +
        (if true = true ∧ p = pp then q else 0)
      rw [hp]
      by_cases hpp : p = pp
      · subst hpp
        simp
        omega
      · have hbe : (p == pp) = false := by simp [hpp]
        simp [hbe, hpp]
    · have hk' : isKey e p a = false := by revert hk; cases isKey e p a <;> simp
      have iht := epSum_map_bumpQty e p q t hn.2 pp
      simp only [List.map_cons, epSum, List.any_cons, hk', Bool.false_or, iht,
        bumpQty, hk', if_false]
      split_ifs <;> simp_all <;> omega

lemma epSum_map_setQty (e p : Nat) (newq : Int) :
    ∀ (l : List EPRow) (r : EPRow), epKeysNodup l = true →
      l.find? (isKey e p) = some r → ∀ pp : Nat,
      epSum (l.map (setQty e p newq)) pp =
        epSum l pp + (if p = pp then newq - r.quantity_assigned else 0)
  | [], r, _, hf, pp => by simp at hf
  | a :: t, r, hn, hf, pp => by
    simp only [epKeysNodup, Bool.and_eq_true, Bool.not_eq_true'] at hn
    by_cases hk : isKey e p a = true
    · obtain ⟨he, hp⟩ : a.event_id = e ∧ a.product_id = p := by
        simpa [isKey, Bool.and_eq_true, beq_iff_eq] using hk
      have hra : r = a := by
        have := hf
        rw [List.find?_cons_of_pos _ hk] at this
        exact (Option.some_inj.mp this).symm
      subst hra
      have hta : t.any (isKey e p) = false := by rw [← he, ← hp]; exact hn.1
      simp only [List.map_cons, epSum, setQty, if_pos hk, setQty_map_id e p newq t hta]
      simp only [hp, beq_iff_eq]
      split_ifs <;> simp_all <;> omega
    · have hk' : isKey e p a = false := by revert hk; cases isKey e p a <;> simp
      have hft : t.find? (isKey e p) = some r := by
        have := hf
        rwa [List.find?_cons_of_neg _ (by simp [hk'])] at this
      have iht := epSum_map_setQty e p newq t r hn.2 hft pp
      simp only [List.map_cons, epSum, setQty, hk', if_false, iht]
      split_ifs <;> simp_all <;> omega

lemma epSum_filter_erase (e p : Nat) :
    ∀ (l : List EPRow) (r : EPRow), epKeysNodup l = true →
      l.find? (isKey e p) = some r → ∀ pp : Nat,
      epSum (l.filter (fun x => !(isKey e p x))) pp =
        epSum l pp - (if p = pp then r.quantity_assigned else 0)
  | [], r, _, hf, pp => by simp at hf
  | a :: t, r, hn, hf, pp => by
    simp only [epKeysNodup, Bool.and_eq_true, Bool.not_eq_true'] at hn
    by_cases hk : isKey e p a = true
    · obtain ⟨he, hp⟩ : a.event_id = e ∧ a.product_id = p := by
        simpa [isKey, Bool.and_eq_true, beq_iff_eq] using hk
      have hra : r = a := by
        have := hf
        rw [List.find?_cons_of_pos _ hk] at this
        exact (Option.some_inj.mp this).symm
      subst hra
      have hta : t.any (isKey e p) = false := by rw [← he, ← hp]; exact hn.1
      simp only [List.filter_cons, hk, Bool.not_true, if_false,
        filter_not_key_id e p t hta, epSum]
      simp only [hp, beq_iff_eq]
      split_ifs <;> simp_all <;> omega
    · have hk' : isKey e p a = false := by revert hk; cases isKey e p a <;> simp
      have hft : t.find? (isKey e p) = some r := by
        have := hf
        rwa [List.find?_cons_of_neg _ (by simp [hk'])] at this
      have iht := epSum_filter_erase e p t r hn.2 hft pp
      simp only [List.filter_cons, hk', Bool.not_false, if_true, epSum, iht]
      split_ifs <;> simp_all <;> omega

lemma epSum_map_setPrice (e p : Nat) (price : ℚ) :
    ∀ (l : List EPRow) (pp : Nat),
      epSum (l.map (setPrice e p price)) pp = epSum l pp
  | [], _ => rfl
  | a :: t, pp => by
    simp only [List.map_cons, epSum, (setPrice_fields e p price a).2, setPrice_qty,
      epSum_map_setPrice e p price t pp]

lemma epSum_upsert (eps : List EPRow) (eid pid : Nat) (q : Int)
    (hn : epKeysNodup eps = true) (pp : Nat) :
    epSum (upsertEPRows eps eid pid q) pp =
      epSum eps pp + (if pid = pp then q else 0) := by
  by_cases h : eps.any (isKey eid pid) = true
  · rw [upsertEPRows, if_pos h, epSum_map_bumpQty eid pid q eps hn pp]
    simp [h]
  · rw [upsertEPRows, if_neg h, epSum_append]
    simp [beq_iff_eq]

lemma nodup_upsert (eps : List EPRow) (eid pid : Nat) (q : Int)
    (hn : epKeysNodup eps = true) :
    epKeysNodup (upsertEPRows eps eid pid q) = true := by
  by_cases h : eps.any (isKey eid pid) = true
  · rw [upsertEPRows, if_pos h, map_epKeysNodup (bumpQty eid pid q) (bumpQty_fields eid pid q)]
    exact hn
  · rw [upsertEPRows, if_neg h]
    exact epKeysNodup_append eid pid q none eps hn
      (by revert h; cases eps.any (isKey eid pid) <;> simp)

lemma rows_nonneg_upsert (eps : List EPRow) (eid pid : Nat) (q : Int)
    (hq : 0 ≤ q) (hrows : ∀ r ∈ eps, 0 ≤ r.quantity_assigned) :
    ∀ r ∈ upsertEPRows eps eid pid q, 0 ≤ r.quantity_assigned := by
  intro r hr
  by_cases h : eps.any (isKey eid pid) = true
  · rw [upsertEPRows, if_pos h] at hr
    obtain ⟨r0, hr0, rfl⟩ := List.mem_map.mp hr
    unfold bumpQty
    split
    · have h0 := hrows r0 hr0
      show 0 ≤ r0.quantity_assigned + q
      omega
    · exact hrows r0 hr0
  · rw [upsertEPRows, if_neg h] at hr
    rcases List.mem_append.mp hr with h1 | h1
    · exact hrows r h1
    · have : r = ⟨eid, pid, q, none⟩ := by simpa using h1
      rw [this]
      exact hq

lemma applySel_onHand (st : RState) (eid : Nat) (sel : Sel) :
    (applySel st eid sel).onHandQty = st.onHandQty := by
  cases hsp : sel.sale_price <;> simp [applySel, reserve_stock, hsp]

lemma applySel_reserved (st : RState) (eid : Nat) (sel : Sel) (p2 : Nat) :
    (applySel st eid sel).reservedQty p2 =
      if p2 == sel.product_id then st.reservedQty p2 + sel.quantity
      else st.reservedQty p2 := by
  cases hsp : sel.sale_price <;> simp [applySel, reserve_stock, hsp]

lemma applySel_eps (st : RState) (eid : Nat) (sel : Sel) :
    (applySel st eid sel).eps =
      match sel.sale_price with
      | some price =>
        (upsertEPRows st.eps eid sel.product_id sel.quantity).map
          (setPrice eid sel.product_id price)
      | none => upsertEPRows st.eps eid sel.product_id sel.quantity := by
  cases hsp : sel.sale_price <;> simp [applySel, reserve_stock, hsp]

lemma epSum_applySel (st : RState) (eid : Nat) (sel : Sel)
    (hn : epKeysNodup st.eps = true) (pp : Nat) :
    epSum (applySel st eid sel).eps pp =
      epSum st.eps pp + (if sel.product_id = pp then sel.quantity else 0) := by
  have heps := applySel_eps st eid sel
  cases hsp : sel.sale_price with
  | none =>
    rw [hsp] at heps
    rw [heps, epSum_upsert st.eps eid sel.product_id sel.quantity hn pp]
  | some price =>
    rw [hsp] at heps
    rw [heps, epSum_map_setPrice eid sel.product_id price,
      epSum_upsert st.eps eid sel.product_id sel.quantity hn pp]

lemma nodup_applySel (st : RState) (eid : Nat) (sel : Sel)
    (hn : epKeysNodup st.eps = true) :
    epKeysNodup (applySel st eid sel).eps = true := by
  have heps := applySel_eps st eid sel
  cases hsp : sel.sale_price with
  | none =>
    rw [hsp] at heps
    rw [heps]
    exact nodup_upsert st.eps eid sel.product_id sel.quantity hn
  | some price =>
    rw [hsp] at heps
    rw [heps, map_epKeysNodup (setPrice eid sel.product_id price)
      (setPrice_fields eid sel.product_id price)]
    exact nodup_upsert st.eps eid sel.product_id sel.quantity hn

lemma rows_nonneg_applySel (st : RState) (eid : Nat) (sel : Sel)
    (hq : 0 ≤ sel.quantity) (hrows : ∀ r ∈ st.eps, 0 ≤ r.quantity_assigned) :
    ∀ r ∈ (applySel st eid sel).eps, 0 ≤ r.quantity_assigned := by
  have heps := applySel_eps st eid sel
  cases hsp : sel.sale_price with
  | none =>
    rw [hsp] at heps
    rw [heps]
    exact rows_nonneg_upsert st.eps eid sel.product_id sel.quantity hq hrows
  | some price =>
    rw [hsp] at heps
    rw [heps]
    intro r hr
    obtain ⟨r0, hr0, rfl⟩ := List.mem_map.mp hr
    rw [setPrice_qty]
    exact rows_nonneg_upsert st.eps eid sel.product_id sel.quantity hq hrows r0 hr0

lemma ResInv_applySel (st : RState) (eid : Nat) (sel : Sel)
    (hInv : ResInv st) (hq : 0 ≤ sel.quantity)
    (hok : ¬ get_available_stock st sel.product_id < sel.quantity) :
    ResInv (applySel st eid sel) := by
  obtain ⟨hn, hres, hrows, hbound⟩ := hInv
  refine ⟨nodup_applySel st eid sel hn, ?_, rows_nonneg_applySel st eid sel hq hrows, ?_⟩
  · intro p2
    rw [applySel_reserved st eid sel p2, epSum_applySel st eid sel hn p2]
    by_cases hp2 : p2 = sel.product_id
    · simp only [hp2, beq_self_eq_true, if_true, eq_self_iff_true]
      rw [hres sel.product_id]
    · have hb : (p2 == sel.product_id) = false := by simp [hp2]
      have hb2 : ¬ (sel.product_id = p2) := fun h => hp2 h.symm
      simp only [hb, Bool.false_eq_true, if_false, hb2]
      rw [hres p2]
      simp [hb2]
  · intro p2
    rw [applySel_reserved st eid sel p2, applySel_onHand st eid sel]
    unfold get_available_stock at hok
    by_cases hp2 : p2 = sel.product_id
    · subst hp2
      simp only [beq_self_eq_true, if_true]
      have := hbound sel.product_id
      omega
    · have hb : (p2 == sel.product_id) = false := by simp [hp2]
      simp only [hb, Bool.false_eq_true, if_false]
      exact hbound p2

lemma ResInv_importLoop (eid : Nat) :
    ∀ (sels : List Sel) (st st' : RState), ResInv st →
      (∀ sel ∈ sels, 0 ≤ sel.quantity) →
      importLoop eid st sels = .ok st' → ResInv st'
  | [], st, st', hInv, _, h => by
    simp only [importLoop] at h
    cases h
    exact hInv
  | sel :: rest, st, st', hInv, hq, h => by
    simp only [importLoop] at h
    split at h
    · cases h
    · exact ResInv_importLoop eid rest (applySel st eid sel) st'
        (ResInv_applySel st eid sel hInv (hq sel (by simp)) (by assumption))
        (fun s hs => hq s (by simp [hs])) h

lemma ResInv_update (st : RState) (eid pid : Nat) (newq : Int) (st' : RState)
    (hInv : ResInv st) (hq : 0 ≤ newq)
    (h : update_event_product_quantity st eid pid newq = .ok st') : ResInv st' := by
  obtain ⟨hn, hres, hrows, hbound⟩ := hInv
  unfold update_event_product_quantity at h
  cases hf : st.eps.find? (isKey eid pid) with
  | none => rw [hf] at h; cases h
  | some r =>
    rw [hf] at h
    dsimp only at h
    obtain ⟨hre, hrp, hrm⟩ := find?_isKey_fields hf
    have hr0 := hrows r hrm
    have hsum := epSum_map_setQty eid pid newq st.eps r hn hf
    have hnod : epKeysNodup (st.eps.map (setQty eid pid newq)) = true := by
      rw [map_epKeysNodup (setQty eid pid newq) (setQty_fields eid pid newq)]
      exact hn
    have hrows2 : ∀ r2 ∈ st.eps.map (setQty eid pid newq), 0 ≤ r2.quantity_assigned := by
      intro r2 hr2
      obtain ⟨r0, hr0', rfl⟩ := List.mem_map.mp hr2
      unfold setQty
      split
      · exact hq
      · exact hrows r0 hr0'
    by_cases hd1 : 0 < newq - r.quantity_assigned
    · rw [if_pos hd1] at h
      by_cases havail : get_available_stock st pid < newq - r.quantity_assigned
      · rw [if_pos havail] at h; cases h
      · rw [if_neg havail] at h
        injection h with h2
        subst h2
        refine ⟨hnod, ?_, hrows2, ?_⟩
        · intro pp
          show (if pp == pid then st.reservedQty pp + (newq - r.quantity_assigned)
              else st.reservedQty pp) = epSum (st.eps.map (setQty eid pid newq)) pp
          rw [hsum pp]
          by_cases hpp : pp = pid
          · subst hpp
            simp only [beq_self_eq_true, if_true, eq_self_iff_true]
            have := hres pp
            omega
          · have h1 : (pp == pid) = false := by simp [hpp]
            have h2 : ¬ (pid = pp) := fun hx => hpp hx.symm
            simp only [h1, Bool.false_eq_true, if_false, if_neg h2]
            have := hres pp
            omega
        · intro pp
          show (if pp == pid then st.reservedQty pp + (newq - r.quantity_assigned)
              else st.reservedQty pp) ≤ st.onHandQty pp
          unfold get_available_stock at havail
          by_cases hpp : pp = pid
          · subst hpp
            simp only [beq_self_eq_true, if_true]
            have := hbound pp
            omega
          · have h1 : (pp == pid) = false := by simp [hpp]
            simp only [h1, Bool.false_eq_true, if_false]
            exact hbound pp
    · rw [if_neg hd1] at h
      by_cases hd2 : newq - r.quantity_assigned < 0
      · rw [if_pos hd2] at h
        injection h with h2
        subst h2
        refine ⟨hnod, ?_, hrows2, ?_⟩
        · intro pp
          show (if pp == pid then st.reservedQty pp - -(newq - r.quantity_assigned)
              else st.reservedQty pp) = epSum (st.eps.map (setQty eid pid newq)) pp
          rw [hsum pp]
          by_cases hpp : pp = pid
          · subst hpp
            simp only [beq_self_eq_true, if_true, eq_self_iff_true]
            have := hres pp
            omega
          · have h1 : (pp == pid) = false := by simp [hpp]
            have h2 : ¬ (pid = pp) := fun hx => hpp hx.symm
            simp only [h1, Bool.false_eq_true, if_false, if_neg h2]
            have := hres pp
            omega
        · intro pp
          show (if pp == pid then st.reservedQty pp - -(newq - r.quantity_assigned)
              else st.reservedQty pp) ≤ st.onHandQty pp
          by_cases hpp : pp = pid
          · subst hpp
            simp only [beq_self_eq_true, if_true]
            have := hbound pp
            omega
          · have h1 : (pp == pid) = false := by simp [hpp]
            simp only [h1, Bool.false_eq_true, if_false]
            exact hbound pp
      · rw [if_neg hd2] at h
        injection h with h2
        subst h2
        refine ⟨hnod, ?_, hrows2, ?_⟩
        · intro pp
          show st.reservedQty pp = epSum (st.eps.map (setQty eid pid newq)) pp
          rw [hsum pp]
          have := hres pp
          split_ifs <;> omega
        · intro pp
          exact hbound pp

lemma ResInv_remove (st : RState) (eid pid : Nat) (st' : RState)
    (hInv : ResInv st)
    (h : remove_product_from_event st eid pid = .ok st') : ResInv st' := by
  obtain ⟨hn, hres, hrows, hbound⟩ := hInv
  unfold remove_product_from_event at h
  cases hf : st.eps.find? (isKey eid pid) with
  | none => rw [hf] at h; cases h
  | some r =>
    rw [hf] at h
    dsimp only at h
    injection h with h2
    subst h2
    obtain ⟨hre, hrp, hrm⟩ := find?_isKey_fields hf
    have hr0 := hrows r hrm
    have hsum := epSum_filter_erase eid pid st.eps r hn hf
    refine ⟨epKeysNodup_filter _ st.eps hn, ?_, ?_, ?_⟩
    · intro pp
      show (if pp == pid then st.reservedQty pp - r.quantity_assigned
          else st.reservedQty pp) =
        epSum (st.eps.filter (fun x => !(isKey eid pid x))) pp
      rw [hsum pp]
      have := hres pp
      by_cases hpp : pp = pid
      · subst hpp
        simp only [beq_self_eq_true, if_true, eq_self_iff_true]
        omega
      · have h1 : (pp == pid) = false := by simp [hpp]
        have h2 : ¬ (pid = pp) := fun hx => hpp hx.symm
        simp only [h1, Bool.false_eq_true, if_false, if_neg h2]
        omega
    · intro r2 hr2
      exact hrows r2 (List.mem_of_mem_filter hr2)
    · intro pp
      show (if pp == pid then st.reservedQty pp - r.quantity_assigned
          else st.reservedQty pp) ≤ st.onHandQty pp
      by_cases hpp : pp = pid
      · subst hpp
        simp only [beq_self_eq_true, if_true]
        have := hbound pp
        omega
      · have h1 : (pp == pid) = false := by simp [hpp]
        simp only [h1, Bool.false_eq_true, if_false]
        exact hbound pp

lemma ResInv_step (st : RState) (op : ROp)
    (hInv : ResInv st) (hq : opNonnegB op = true) : ResInv (stepROp st op) := by
  cases op with
  | imp eid sels =>
    simp only [stepROp]
    cases him : import_products_to_event st eid sels with
    | error e => exact hInv
    | ok st2 =>
      refine ResInv_importLoop eid sels st st2 hInv ?_ him
      intro sel hs
      have := List.all_eq_true.mp hq sel hs
      exact of_decide_eq_true this
  | upd eid pid newq =>
    simp only [stepROp]
    cases hu : update_event_product_quantity st eid pid newq with
    | error e => exact hInv
    | ok st2 => exact ResInv_update st eid pid newq st2 hInv (of_decide_eq_true hq) hu
  | rem eid pid =>
    simp only [stepROp]
    cases hr : remove_product_from_event st eid pid with
    | error e => exact hInv
    | ok st2 => exact ResInv_remove st eid pid st2 hInv hr

lemma ResInv_run :
    ∀ (ops : List ROp) (st : RState), ResInv st →
      (∀ op ∈ ops, opNonnegB op = true) → ResInv (runROps st ops)
  | [], st, hInv, _ => hInv
  | op :: ops, st, hInv, hq => by
    simp only [runROps, List.foldl_cons]
    exact ResInv_run ops (stepROp st op)
      (ResInv_step st op hInv (hq op (by simp)))
      (fun o ho => hq o (by simp [ho]))

/-- C5 counterexample: starting from on-hand 5 with no assignments, the
sequence `cexOps` — whose assignments all carry positive quantities —
reaches a state where the assignment sum of product 1 is 8 while on-hand
stock is 5, so `on_hand(p) ≥ Σ quantity_assigned(e, p)` fails. -/
theorem c5_counterexample :
    ¬ (epSum (runROps (initR fun _ => 5) cexOps).eps 1 ≤
        (runROps (initR fun _ => 5) cexOps).onHandQty 1) := by
  decide

/-- C5 (amended): from a fresh reservation state over non-negative on-hand
stock, along any sequence of import / update-quantity / remove calls in
which every assigned quantity and every new quantity is non-negative, every
intermediate state satisfies the reservation invariant: for every product,
on-hand stock is at least the sum over events of `quantity_assigned`. -/
theorem c5_reservation_invariant (f : Nat → Int) (ops : List ROp)
    (hf : ∀ p, 0 ≤ f p)
    (hops : ∀ op ∈ ops, opNonnegB op = true) :
    ∀ k p, epSum (runROps (initR f) (ops.take k)).eps p ≤
      (runROps (initR f) (ops.take k)).onHandQty p := by
  intro k p
  have hInv0 : ResInv (initR f) := by
    refine ⟨rfl, fun p2 => rfl, ?_, ?_⟩
    · intro r hr
      simp [initR] at hr
    · intro p2
      exact hf p2
  have hInv := ResInv_run (ops.take k) (initR f) hInv0
    (fun op hop => hops op (List.take_subset k ops hop))
  obtain ⟨_, hres, _, hbound⟩ := hInv
  rw [← hres p]
  exact hbound p

/-- Witness for C5 (amended) at a concrete input: on-hand 5 everywhere and a
single import of 3 units of product 1 keeps the assignment sum within
on-hand stock. -/
theorem c5_witness :
    epSum (runROps (initR fun _ => 5) ([ROp.imp 1 [⟨1, 3, none⟩]].take 1)).eps 1 ≤
      (runROps (initR fun _ => 5) ([ROp.imp 1 [⟨1, 3, none⟩]].take 1)).onHandQty 1 :=
  c5_reservation_invariant (fun _ => 5) [ROp.imp 1 [⟨1, 3, none⟩]]
    (fun _ => (by decide : (0 : Int) ≤ 5)) (by decide) 1 1

/-- C6: a single assignment of a positive quantity: when available stock is
short, the call returns the insufficient-stock error and — the transaction
being rolled back and the exception re-raised — the caller's state is
untouched; otherwise the call commits, in one unit, the EventProduct upsert
(adding to an existing row's `quantity_assigned`, else inserting the row),
the reservation of the quantity against inventory, and the optional sale
price, leaving on-hand stock unchanged. -/
theorem c6_assign_insufficient_or_upsert (st : RState) (eid pid : Nat) (q : Int)
    (sp : Option ℚ) (hq : 0 < q) (hn : epKeysNodup st.eps = true) :
    (get_available_stock st pid < q →
        import_products_to_event st eid [⟨pid, q, sp⟩] =
            .error ("Not enough stock for product ID " ++ toString pid) ∧
          stepROp st (.imp eid [⟨pid, q, sp⟩]) = st) ∧
    (¬ get_available_stock st pid < q →
        import_products_to_event st eid [⟨pid, q, sp⟩] =
            .ok (applySel st eid ⟨pid, q, sp⟩) ∧
          stepROp st (.imp eid [⟨pid, q, sp⟩]) = applySel st eid ⟨pid, q, sp⟩ ∧
          (applySel st eid ⟨pid, q, sp⟩).onHandQty = st.onHandQty ∧
          (∀ p2, (applySel st eid ⟨pid, q, sp⟩).reservedQty p2 =
            if p2 == pid then st.reservedQty p2 + q else st.reservedQty p2) ∧
          (∀ pp, epSum (applySel st eid ⟨pid, q, sp⟩).eps pp =
            epSum st.eps pp + (if pid = pp then q else 0))) := by
  constructor
  · intro hlt
    have h1 : import_products_to_event st eid [⟨pid, q, sp⟩] =
        .error ("Not enough stock for product ID " ++ toString pid) := by
      simp only [import_products_to_event, importLoop]
      rw [if_pos hlt]
    refine ⟨h1, ?_⟩
    simp only [stepROp, h1]
  · intro hge
    have h1 : import_products_to_event st eid [⟨pid, q, sp⟩] =
        .ok (applySel st eid ⟨pid, q, sp⟩) := by
      simp only [import_products_to_event, importLoop]
      rw [if_neg hge]
    refine ⟨h1, ?_, applySel_onHand st eid ⟨pid, q, sp⟩,
      fun p2 => applySel_reserved st eid ⟨pid, q, sp⟩ p2,
      fun pp => epSum_applySel st eid ⟨pid, q, sp⟩ hn pp⟩
    simp only [stepROp, h1]

/-- Witness for C6 at a concrete input: assigning 3 units of product 2 to
event 1 with 10 available succeeds and commits the upsert. -/
theorem c6_witness :
    ((0 : Int) < 3 ∧ epKeysNodup demoRState.eps = true) ∧
      import_products_to_event demoRState 1 [⟨2, 3, none⟩] =
        .ok (applySel demoRState 1 ⟨2, 3, none⟩) :=
  ⟨⟨by decide, by decide⟩,
    ((c6_assign_insufficient_or_upsert demoRState 1 2 3 none (by decide) (by decide)).2
      (by decide)).1⟩

end EventsManager
